import Mathlib

/-!
Verification development for the OTFTracker email-sync script
(`scripts/sync_emails.py`).

The script's core is shallowly embedded below:
* the four label-anchored regular-expression searches of
  `parse_workout_data` are embedded as direct scanning functions over
  `List Char` with Python `re.search` leftmost-match semantics
  (backtracking over the bounded digit quantifiers is spelled out where
  it can matter; for the other quantifiers greedy scanning is provably
  equivalent because the following pattern element can never match a
  character the quantifier consumed);
* `BeautifulSoup(...).get_text(separator=' ', strip=True)` is embedded
  as `soupText`: split the input at markup tags, strip each text
  segment, drop segments that become empty, and join with single
  spaces;
* the date-header resolution of `parse_email_date` is embedded with
  models of `email.utils.parsedate_to_datetime` (via `_parsedate_tz`)
  and of `datetime.strptime` with the fixed format
  `'%a, %d %b %Y %H:%M:%S %z'`, both restricted to ASCII text, which is
  all the header grammar uses;
* Python `float` on strings matched by `\d+\.?\d*` is represented
  exactly as a rational number (no binary rounding is modelled; no
  claim depends on it);
* a raised exception is represented as `Except.error` (or as `none`
  where the caller catches every exception).

Character classes (`\d`, `\s`, `\w`) are modelled on their ASCII
ranges, which is what every claim's text exercises.
-/

/-- ASCII model of Python's regex class `\s`. -/
def isSpaceCh (c : Char) : Bool :=
  c.toNat = 32 || c.toNat = 9 || c.toNat = 10 || c.toNat = 13 || c.toNat = 11 || c.toNat = 12

/-- ASCII model of Python's regex class `\d`. -/
def isDigitCh (c : Char) : Bool := 48 ≤ c.toNat && c.toNat ≤ 57

/-- ASCII model of Python's regex class `\w` (word character). -/
def isWordCh (c : Char) : Bool :=
  isDigitCh c || (97 ≤ c.toNat && c.toNat ≤ 122) || (65 ≤ c.toNat && c.toNat ≤ 90) || c.toNat = 95

/-- ASCII lower-casing, as used by case-insensitive regex matching. -/
def lowerCh (c : Char) : Char :=
  if 65 ≤ c.toNat && c.toNat ≤ 90 then Char.ofNat (c.toNat + 32) else c

/-- Case-insensitive character comparison (`re.IGNORECASE`). -/
def ciEq (a b : Char) : Bool := lowerCh a == lowerCh b

/-- Match a literal pattern case-insensitively at the head of the text,
returning the rest of the text on success. -/
def matchCI : List Char → List Char → Option (List Char)
  | [], s => some s
  | _ :: _, [] => none
  | p :: ps, c :: cs => if ciEq p c then matchCI ps cs else none

/-- Greedy `\s*`. -/
def dropWs (s : List Char) : List Char := s.dropWhile (fun c => isSpaceCh c)

/-- Numeric value of a string of decimal digits (= Python `int` on it). -/
def digitsVal (ds : List Char) : Nat := ds.foldl (fun a c => 10 * a + (c.toNat - 48)) 0

/-- Model of `re.search` semantics: try the position matcher at each start
position, left to right, and return the first success. -/
def reSearch {α : Type} (p : List Char → Option α) : List Char → Option α
  | [] => p []
  | c :: cs =>
    match p (c :: cs) with
    | some r => some r
    | none => reSearch p cs

/-- Tail of the calories pattern `\s*CALORIES\s*BURNED` after the digit
group. `\s*` is committed greedily: the character after it is a letter,
which `\s` never matches, so no backtracking is possible. -/
def calTail (s : List Char) : Bool :=
  match matchCI "CALORIES".data (dropWs s) with
  | some r => (matchCI "BURNED".data (dropWs r)).isSome
  | none => false

/-- One match attempt of `(\d{2,4})\s*CALORIES\s*BURNED` at the current
position; `\d{2,4}` backtracks from four digits down to two. -/
def calAt (s : List Char) : Option Nat :=
  let n := (s.takeWhile isDigitCh).length
  if 4 ≤ n && calTail (s.drop 4) then some (digitsVal (s.take 4))
  else if 3 ≤ n && calTail (s.drop 3) then some (digitsVal (s.take 3))
  else if 2 ≤ n && calTail (s.drop 2) then some (digitsVal (s.take 2))
  else none

/-- Tail of the splat-points pattern `\s*SPLAT\s*POINTS`. -/
def splatTail (s : List Char) : Bool :=
  match matchCI "SPLAT".data (dropWs s) with
  | some r => (matchCI "POINTS".data (dropWs r)).isSome
  | none => false

/-- One match attempt of `(\d{1,2})\s*SPLAT\s*POINTS`. -/
def splatAt (s : List Char) : Option Nat :=
  let n := (s.takeWhile isDigitCh).length
  if 2 ≤ n && splatTail (s.drop 2) then some (digitsVal (s.take 2))
  else if 1 ≤ n && splatTail (s.drop 1) then some (digitsVal (s.take 1))
  else none

/-- Optional case-insensitive character (`S?`): consuming it when
present is equivalent to regex backtracking here because the pattern
element following it can never match the letter itself. -/
def optCI (p : Char) : List Char → List Char
  | [] => []
  | c :: cs => if ciEq p c then cs else c :: cs

/-- One match attempt of
`TREADMILL\s*PERFORMANCE\s*TOTALS?\s*(\d+\.?\d*)\s*miles?`;
the capture is returned as (integer digits, fraction digits). -/
def treadAt (s : List Char) : Option (List Char × List Char) :=
  match matchCI "TREADMILL".data s with
  | none => none
  | some r1 =>
    match matchCI "PERFORMANCE".data (dropWs r1) with
    | none => none
    | some r2 =>
      match matchCI "TOTAL".data (dropWs r2) with
      | none => none
      | some r3 =>
        let r4 := dropWs (optCI 'S' r3)
        let d1 := r4.takeWhile isDigitCh
        if d1 = [] then none
        else
          let r5 := r4.drop d1.length
          let fr :=
            match r5 with
            | '.' :: r => (r.takeWhile isDigitCh, r.drop (r.takeWhile isDigitCh).length)
            | _ => ([], r5)
          match matchCI "mile".data (dropWs fr.2) with
          | none => none
          | some _ => some (d1, fr.1)

/-- One match attempt of
`ROWER\s*PERFORMANCE\s*TOTALS?\s*([\d,]+)\s*m\b`;
the raw capture (digits and commas) is returned. -/
def rowerAt (s : List Char) : Option (List Char) :=
  match matchCI "ROWER".data s with
  | none => none
  | some r1 =>
    match matchCI "PERFORMANCE".data (dropWs r1) with
    | none => none
    | some r2 =>
      match matchCI "TOTAL".data (dropWs r2) with
      | none => none
      | some r3 =>
        let r4 := dropWs (optCI 'S' r3)
        let grp := r4.takeWhile (fun c => isDigitCh c || c == ',')
        if grp = [] then none
        else
          match dropWs (r4.drop grp.length) with
          | [] => none
          | m :: rest =>
            if ciEq m 'm' then
              match rest with
              | [] => some grp
              | c :: _ => if isWordCh c then none else some grp
            else none

/-- Exact decimal value of Python `float` on a string matched by
`\d+\.?\d*`: the digits with the dot removed (`mant`) and the number of
fraction digits (`scale`), so `float('3.6')` is `⟨36, 1⟩`. The rational
it denotes is `PyFloat.val`; binary rounding is not modelled (no claim
depends on it). -/
structure PyFloat where
  mant : Nat
  scale : Nat
deriving DecidableEq, Repr

/-- The rational number a `PyFloat` denotes. -/
def PyFloat.val (f : PyFloat) : ℚ := (f.mant : ℚ) / (10 : ℚ) ^ f.scale

/-- The workout-metric record built by `parse_workout_data`
(the `data` dict); every field is optional and `none` means the
label-anchored search found no match. -/
structure WorkoutData where
  treadmill_distance : Option PyFloat
  rower_distance : Option Int
  splat_points : Option Int
  calories : Option Int
deriving DecidableEq, Repr

/-- Value of the treadmill capture (integer digits, fraction digits). -/
def treadVal (p : List Char × List Char) : PyFloat :=
  ⟨digitsVal (p.1 ++ p.2), p.2.length⟩

/-- The four label-anchored field searches of `parse_workout_data`,
run over the already-flattened text. `Except.error` models the
uncaught `ValueError` from `int(...)` when the rower capture contains
no digit (`int('')`). -/
def extractFields (text : List Char) : Except String WorkoutData :=
  let cal := (reSearch calAt text).map (fun n => (n : Int))
  let splat := (reSearch splatAt text).map (fun n => (n : Int))
  let tread := (reSearch treadAt text).map treadVal
  match reSearch rowerAt text with
  | none => Except.ok ⟨tread, none, splat, cal⟩
  | some grp =>
    match grp.filter (fun c => !(c == ',')) with
    | [] => Except.error "ValueError: invalid literal for int() with base 10"
    | ds => Except.ok ⟨tread, some ((digitsVal ds : Nat) : Int), splat, cal⟩

instance instDecEqExcept {ε α : Type} [DecidableEq ε] [DecidableEq α] :
    DecidableEq (Except ε α) := fun
  | Except.error e, Except.error f =>
    if h : e = f then isTrue (by subst h; rfl)
    else isFalse (fun hh => h (Except.error.inj hh))
  | Except.error _, Except.ok _ => isFalse (fun hh => Except.noConfusion hh)
  | Except.ok _, Except.error _ => isFalse (fun hh => Except.noConfusion hh)
  | Except.ok a, Except.ok b =>
    if h : a = b then isTrue (by subst h; rfl)
    else isFalse (fun hh => h (Except.ok.inj hh))

/-- Join text chunks with single spaces (`separator=' '`). -/
def joinSp (l : List (List Char)) : List Char := (l.intersperse [' ']).flatten

/-- Split an HTML string into the text chunks lying outside `<...>`
tags (state: currently inside a tag?). -/
def soupSegs : List Char → Bool → List Char → List (List Char)
  | [], _, acc => [acc.reverse]
  | c :: t, true, acc => if c == '>' then soupSegs t false acc else soupSegs t true acc
  | c :: t, false, acc =>
    if c == '<' then acc.reverse :: soupSegs t true [] else soupSegs t false (c :: acc)

/-- Python `str.strip()` (ASCII whitespace). -/
def stripEnds (s : List Char) : List Char :=
  ((s.dropWhile isSpaceCh).reverse.dropWhile isSpaceCh).reverse

/-- Model of `BeautifulSoup(body, 'html.parser').get_text(separator=' ', strip=True)`:
each text segment outside markup is stripped, empty segments are
dropped, and the rest are joined with single spaces. -/
def soupText (s : List Char) : List Char :=
  joinSp (((soupSegs s false []).map stripEnds).filter (fun t => t ≠ []))

/-- Model of `parse_workout_data` (sync_emails.py lines 121-167): flatten the
body with BeautifulSoup, then run the four label-anchored searches. -/
def parse_workout_data (html_body : String) : Except String WorkoutData :=
  extractFields (soupText html_body.data)

example :
    parse_workout_data "674 CALORIES BURNED" =
      Except.ok ⟨none, none, none, some 674⟩ := by decide

example :
    parse_workout_data "ROWER PERFORMANCE TOTALS 1,234 m" =
      Except.ok ⟨none, some 1234, none, none⟩ := by decide

example :
    parse_workout_data "ROWER PERFORMANCE TOTALS , m" =
      Except.error "ValueError: invalid literal for int() with base 10" := by decide

example :
    parse_workout_data "ROWER PERFORMANCE TOTALS 1,234 miles" =
      Except.ok ⟨none, none, none, none⟩ := by decide

example :
    parse_workout_data "<b>12  SPLAT POINTS</b> and TREADMILL PERFORMANCE TOTALS 3.6 miles" =
      Except.ok ⟨some ⟨36, 1⟩, none, some 12, none⟩ := by decide

example : PyFloat.val ⟨36, 1⟩ = 18 / 5 := by
  norm_num [PyFloat.val]

/-! ## Date-header resolution

Models of the two parsers used by `parse_email_date`:
`email.utils.parsedate_to_datetime` (standard mail-date parser, built
on `email._parseaddr._parsedate_tz`) and
`datetime.strptime(s, '%a, %d %b %Y %H:%M:%S %z')`. A raised exception
anywhere inside either parser is modelled as `none`, which is exactly
how the caller's `except` blocks treat it. -/

/-- ASCII upper-case letter (`[A-Z]`). -/
def isUpperAZ (c : Char) : Bool := 65 ≤ c.toNat && c.toNat ≤ 90

/-- ASCII model of `str.upper()`. -/
def upperCh (c : Char) : Char :=
  if 97 ≤ c.toNat && c.toNat ≤ 122 then Char.ofNat (c.toNat - 32) else c

/-- ASCII model of `str.lower()` on a string. -/
def pyLower (s : List Char) : List Char := s.map lowerCh

/-- ASCII model of `str.upper()` on a string. -/
def pyUpper (s : List Char) : List Char := s.map upperCh

/-- Python `str.split()`: split on whitespace runs, no empty tokens. -/
def splitWsAux : List Char → List Char → List (List Char)
  | [], acc => if acc = [] then [] else [acc.reverse]
  | c :: t, acc =>
    if isSpaceCh c then
      if acc = [] then splitWsAux t [] else acc.reverse :: splitWsAux t []
    else splitWsAux t (c :: acc)

/-- Python `str.split()`. -/
def splitWs (s : List Char) : List (List Char) := splitWsAux s []

/-- Python `str.split(sep)` for a one-character separator (keeps empty
pieces). -/
def splitOnAux (sep : Char) : List Char → List Char → List (List Char)
  | [], acc => [acc.reverse]
  | c :: t, acc =>
    if c == sep then acc.reverse :: splitOnAux sep t []
    else splitOnAux sep t (c :: acc)

/-- Python `str.split(sep)`, one-character separator. -/
def splitOn1 (sep : Char) (s : List Char) : List (List Char) := splitOnAux sep s []

/-- Model of Python `int(str)`: optional surrounding whitespace, an
optional sign, then at least one decimal digit. (Underscore digit
grouping is not modelled; no header in any claim uses it.) -/
def pyIntCore : List Char → Option Int
  | [] => none
  | c :: ds =>
    if c == '+' then
      (if ds ≠ [] ∧ ds.all isDigitCh then some (digitsVal ds : Int) else none)
    else if c == '-' then
      (if ds ≠ [] ∧ ds.all isDigitCh then some (-(digitsVal ds : Int)) else none)
    else if (c :: ds).all isDigitCh then some (digitsVal (c :: ds) : Int) else none

/-- Model of Python `int(str)` (after whitespace stripping). -/
def pyInt (s : List Char) : Option Int := pyIntCore (stripEnds s)

/-- Model of `email._parseaddr._daynames`. -/
def daynames : List (List Char) :=
  ["mon", "tue", "wed", "thu", "fri", "sat", "sun"].map String.data

/-- Model of `email._parseaddr._monthnames` (abbreviated then full names). -/
def monthnames : List (List Char) :=
  ["jan", "feb", "mar", "apr", "may", "jun", "jul", "aug", "sep", "oct", "nov", "dec",
   "january", "february", "march", "april", "may", "june", "july", "august",
   "september", "october", "november", "december"].map String.data

/-- Model of `email._parseaddr._timezones`. -/
def tzTable : List (List Char × Int) :=
  [("UT", 0), ("UTC", 0), ("GMT", 0), ("Z", 0),
   ("AST", -400), ("ADT", -300), ("EST", -500), ("EDT", -400),
   ("CST", -600), ("CDT", -500), ("MST", -700), ("MDT", -600),
   ("PST", -800), ("PDT", -700)].map (fun p => (p.1.data, p.2))

/-- Index of the last occurrence of a character (`str.rfind`). -/
def rfindChar (c : Char) (s : List Char) : Option Nat :=
  match s.reverse.findIdx? (fun x => x == c) with
  | some j => some (s.length - 1 - j)
  | none => none

/-- Model of `_parsedate_tz` step: strip the optional day-of-week token (or the
part of the first token up to its last comma). -/
def pdtDropDay (data : List (List Char)) : List (List Char) :=
  match data with
  | [] => []
  | t0 :: rest =>
    if t0.getLast? = some ',' ∨ pyLower t0 ∈ daynames then rest
    else
      match rfindChar ',' t0 with
      | some i => t0.drop (i + 1) :: rest
      | none => t0 :: rest

/-- Model of `_parsedate_tz` step: expand an RFC 850 `dd-mon-yy` first token. -/
def pdtRfc850 (data : List (List Char)) : List (List Char) :=
  match data with
  | [a, b, c] =>
    match splitOn1 '-' a with
    | [x, y, z] => [x, y, z, b, c]
    | _ => [a, b, c]
  | l => l

/-- Model of `_parsedate_tz` step: when four tokens remain, split a timezone
glued to the time token at its first `+`/`-`, or append a dummy
timezone. -/
def pdtFourTok (data : List (List Char)) : List (List Char) :=
  match data with
  | [a, b, c, s] =>
    let i :=
      match s.findIdx? (fun x => x == '+') with
      | some i => some i
      | none => s.findIdx? (fun x => x == '-')
    match i with
    | some i => if 0 < i then [a, b, c, s.take i, s.drop i] else [a, b, c, s, []]
    | none => [a, b, c, s, []]
  | l => l

/-- The fields of the tuple `_parsedate_tz` returns (timezone offset in
seconds, `none` for an unrecognized timezone). -/
structure PdtTuple where
  yy : Int
  mon : Nat
  dd : Int
  thh : Int
  tmm : Int
  tss : Int
  tzoff : Option Int
deriving DecidableEq, Repr

/-- Timezone-name table lookup. -/
def lookupTz (t : List Char) : Option Int :=
  (tzTable.find? (fun p => p.1 == t)).map (fun p => p.2)

/-- Model of `_parsedate_tz` final stage: convert the five tokens to numbers
(two-digit-year adjustment, timezone-name lookup, HHMM-to-seconds
conversion). -/
def pdtInts (yy dd thh tmm tss : List Char) (mon : Nat) (tz : List Char) :
    Option PdtTuple :=
  match pyInt yy, pyInt dd, pyInt thh, pyInt tmm, pyInt tss with
  | some y, some d, some h, some mi, some s =>
    let y1 : Int := if y < 100 then (if y > 68 then y + 1900 else y + 2000) else y
    let tzoffset : Option Int :=
      match lookupTz (pyUpper tz) with
      | some v => some v
      | none =>
        match pyInt tz with
        | some v => if v = 0 ∧ tz.head? = some '-' then none else some v
        | none => none
    let tzSec : Option Int :=
      match tzoffset with
      | none => none
      | some v =>
        if v = 0 then some 0
        else
          let sign : Int := if v < 0 then -1 else 1
          let a : Nat := v.natAbs
          some (sign * ((a / 100) * 3600 + (a % 100) * 60))
    some ⟨y1, mon, d, h, mi, s, tzSec⟩
  | _, _, _, _, _ => none

/-- Model of `_parsedate_tz` field stage: month lookup with the day/month swap
fallback, comma stripping, year/time and year/timezone swaps, time
split. An out-of-range index access raises in Python; that is `none`
here (the caller catches it either way). -/
def pdtFields (dd0 mm0 yy0 tm0 tz0 : List Char) : Option PdtTuple :=
  let dm : Option (List Char × Nat) :=
    match monthnames.findIdx? (fun x => x == pyLower mm0) with
    | some i => some (dd0, if i + 1 > 12 then i + 1 - 12 else i + 1)
    | none =>
      match monthnames.findIdx? (fun x => x == pyLower dd0) with
      | some i => some (mm0, if i + 1 > 12 then i + 1 - 12 else i + 1)
      | none => none
  match dm with
  | none => none
  | some (dd1, mon) =>
    match dd1.getLast? with
    | none => none
    | some dc =>
      let dd2 := if dc == ',' then dd1.dropLast else dd1
      let p1 : List Char × List Char :=
        match yy0.findIdx? (fun x => x == ':') with
        | some i => if 0 < i then (tm0, yy0) else (yy0, tm0)
        | none => (yy0, tm0)
      match p1.1.getLast? with
      | none => none
      | some yc =>
        let yy2 := if yc == ',' then p1.1.dropLast else p1.1
        match yy2.head? with
        | none => none
        | some y0 =>
          let p2 : List Char × List Char :=
            if !(isDigitCh y0) then (tz0, yy2) else (yy2, tz0)
          match p1.2.getLast? with
          | none => none
          | some tc =>
            let tm2 := if tc == ',' then p1.2.dropLast else p1.2
            match splitOn1 ':' tm2 with
            | [h, m] => pdtInts p2.1 dd2 h m ['0'] mon p2.2
            | [h, m, s] => pdtInts p2.1 dd2 h m s mon p2.2
            | _ => none

/-- Model of `email._parseaddr._parsedate_tz`; `none` stands both for a `None`
result and for an exception raised inside it — the caller treats the
two alike. -/
def parsedate_tz (s : List Char) : Option PdtTuple :=
  let data := splitWs s
  if data = [] then none
  else
    let d3 := pdtFourTok (pdtRfc850 (pdtDropDay data))
    if d3.length < 5 then none
    else
      match d3.take 5 with
      | [dd, mm, yy, tm, tz] => pdtFields dd mm yy tm tz
      | _ => none

/-- Gregorian leap year (`calendar.isleap`). -/
def isLeap (y : Int) : Bool := (y % 4 == 0 && y % 100 != 0) || y % 400 == 0

/-- Days in a month, as validated by the `datetime` constructor. -/
def daysInMonth (y : Int) (m : Nat) : Int :=
  if m = 2 then (if isLeap y then 29 else 28)
  else if m = 4 ∨ m = 6 ∨ m = 9 ∨ m = 11 then 30
  else 31

/-- A Python `datetime` value (`tzoff` in seconds east of UTC; `none`
means a naive datetime). -/
structure PyDatetime where
  year : Int
  month : Nat
  day : Int
  hour : Int
  minute : Int
  second : Int
  tzoff : Option Int
deriving DecidableEq, Repr

/-- Model of `datetime.timezone` accepts only offsets strictly between
-24 and +24 hours. -/
def tzOk : Option Int → Bool
  | none => true
  | some v => if -86400 < v ∧ v < 86400 then true else false

/-- The `datetime(...)` constructor's field validation (plus the
`timezone` range check); `none` models the raised `ValueError`. -/
def mkDatetime (y : Int) (mon : Nat) (d h mi s : Int) (tz : Option Int) :
    Option PyDatetime :=
  if 1 ≤ y ∧ y ≤ 9999 ∧ 1 ≤ mon ∧ mon ≤ 12 ∧ 1 ≤ d ∧ d ≤ daysInMonth y mon ∧
      0 ≤ h ∧ h < 24 ∧ 0 ≤ mi ∧ mi < 60 ∧ 0 ≤ s ∧ s < 60 ∧ tzOk tz = true then
    some ⟨y, mon, d, h, mi, s, tz⟩
  else none

/-- Model of `email.utils.parsedate_to_datetime`; `none` models the raised
`ValueError` (unparsable header or invalid datetime fields). -/
def parsedate_to_datetime (s : List Char) : Option PyDatetime :=
  match parsedate_tz s with
  | none => none
  | some t => mkDatetime t.yy t.mon t.dd t.thh t.tmm t.tss t.tzoff

/-- Model of `re.sub(r'\s*\([A-Z]+\)\s*$', '', date_str)`: remove a trailing
parenthesized run of capital letters together with the whitespace
around it, when present. -/
def stripTzName (s : List Char) : List Char :=
  match s.reverse.dropWhile isSpaceCh with
  | ')' :: r1 =>
    let caps := r1.takeWhile isUpperAZ
    if caps = [] then s
    else
      match r1.drop caps.length with
      | '(' :: r2 => (r2.dropWhile isSpaceCh).reverse
      | _ => s
  | _ => s

/-- The day-name alternatives of `%a` (C locale). -/
def dayAbbrs : List (List Char) :=
  ["Mon", "Tue", "Wed", "Thu", "Fri", "Sat", "Sun"].map String.data

/-- The month-name alternatives of `%b` (C locale). -/
def monthAbbrs : List (List Char) :=
  ["Jan", "Feb", "Mar", "Apr", "May", "Jun", "Jul", "Aug", "Sep", "Oct",
   "Nov", "Dec"].map String.data

/-- Case-insensitively match one of the alternative literals at the
head of the text, returning its index. -/
def matchAltsIdx : List (List Char) → Nat → List Char → Option (Nat × List Char)
  | [], _, _ => none
  | a :: rest, i, s =>
    match matchCI a s with
    | some r => some (i, r)
    | none => matchAltsIdx rest (i + 1) s

/-- Model of `\s+` (the translation of a literal space in a `strptime` format). -/
def takeWs1 (s : List Char) : Option (List Char) :=
  match s with
  | c :: r => if isSpaceCh c then some (dropWs r) else none
  | [] => none

/-- Model of `strptime`'s `%d` regex `(3[01]|[12]\d|0[1-9]|[1-9])`, alternatives
in regex order. Committing to the first alternative that matches is
equivalent to the regex's backtracking because the following format
element can never match a digit. -/
def pDay : List Char → Option (Nat × List Char)
  | c1 :: c2 :: r =>
    if c1 == '3' && (c2 == '0' || c2 == '1') then some (digitsVal [c1, c2], r)
    else if (c1 == '1' || c1 == '2') && isDigitCh c2 then some (digitsVal [c1, c2], r)
    else if c1 == '0' && (49 ≤ c2.toNat && c2.toNat ≤ 57) then some (digitsVal [c1, c2], r)
    else if 49 ≤ c1.toNat && c1.toNat ≤ 57 then some (digitsVal [c1], c2 :: r)
    else none
  | [c1] => if 49 ≤ c1.toNat && c1.toNat ≤ 57 then some (digitsVal [c1], []) else none
  | [] => none

/-- Model of `strptime`'s `%H` regex `(2[0-3]|[0-1]\d|\d)`. -/
def pHour : List Char → Option (Nat × List Char)
  | c1 :: c2 :: r =>
    if c1 == '2' && (48 ≤ c2.toNat && c2.toNat ≤ 51) then some (digitsVal [c1, c2], r)
    else if (c1 == '0' || c1 == '1') && isDigitCh c2 then some (digitsVal [c1, c2], r)
    else if isDigitCh c1 then some (digitsVal [c1], c2 :: r)
    else none
  | [c1] => if isDigitCh c1 then some (digitsVal [c1], []) else none
  | [] => none

/-- Model of `strptime`'s `%M` regex `([0-5]\d|\d)`. -/
def pMin : List Char → Option (Nat × List Char)
  | c1 :: c2 :: r =>
    if (48 ≤ c1.toNat && c1.toNat ≤ 53) && isDigitCh c2 then some (digitsVal [c1, c2], r)
    else if isDigitCh c1 then some (digitsVal [c1], c2 :: r)
    else none
  | [c1] => if isDigitCh c1 then some (digitsVal [c1], []) else none
  | [] => none

/-- Model of `strptime`'s `%S` regex `(6[0-1]|[0-5]\d|\d)`. -/
def pSec : List Char → Option (Nat × List Char)
  | c1 :: c2 :: r =>
    if c1 == '6' && (c2 == '0' || c2 == '1') then some (digitsVal [c1, c2], r)
    else if (48 ≤ c1.toNat && c1.toNat ≤ 53) && isDigitCh c2 then some (digitsVal [c1, c2], r)
    else if isDigitCh c1 then some (digitsVal [c1], c2 :: r)
    else none
  | [c1] => if isDigitCh c1 then some (digitsVal [c1], []) else none
  | [] => none

/-- Model of `strptime`'s `%Y` regex `(\d\d\d\d)`. -/
def pYear4 : List Char → Option (Nat × List Char)
  | a :: b :: c :: d :: r =>
    if isDigitCh a && isDigitCh b && isDigitCh c && isDigitCh d then
      some (digitsVal [a, b, c, d], r)
    else none
  | _ => none

/-- Optional colon (`:?`). -/
def pColonOpt : List Char → List Char
  | ':' :: r => r
  | s => s

/-- Model of `strptime`'s `%z` regex
`([+-]\d\d:?[0-5]\d(:?[0-5]\d(\.\d{1,6})?)?|(?-i:Z))`, returning the
offset in seconds (fractional seconds are consumed but discarded —
`timezone` keeps only microseconds, which the pipeline never reads). -/
def pTz : List Char → Option (Int × List Char)
  | [] => none
  | c :: r =>
    if c == 'Z' then some (0, r)
    else if c == '+' || c == '-' then
      match r with
      | h1 :: h2 :: r2 =>
        if isDigitCh h1 && isDigitCh h2 then
          match pColonOpt r2 with
          | m1 :: m2 :: r4 =>
            if (48 ≤ m1.toNat && m1.toNat ≤ 53) && isDigitCh m2 then
              let base := digitsVal [h1, h2] * 3600 + digitsVal [m1, m2] * 60
              let sec : Nat × List Char :=
                match pColonOpt r4 with
                | s1 :: s2 :: r6 =>
                  if (48 ≤ s1.toNat && s1.toNat ≤ 53) && isDigitCh s2 then
                    match r6 with
                    | '.' :: r7 =>
                      let fd := r7.takeWhile isDigitCh
                      if fd = [] then (digitsVal [s1, s2], r6)
                      else (digitsVal [s1, s2], r7.drop (min fd.length 6))
                    | _ => (digitsVal [s1, s2], r6)
                  else (0, r4)
                | _ => (0, r4)
              let total : Int := (base + sec.1 : Nat)
              some (if c == '-' then -total else total, sec.2)
            else none
          | _ => none
        else none
      | _ => none
    else none

/-- Model of `datetime.strptime(s, '%a, %d %b %Y %H:%M:%S %z')`; `none` models
the raised `ValueError` (no match, unconverted trailing data, or
invalid field combination). -/
def strptimeFixed (s : List Char) : Option PyDatetime :=
  match matchAltsIdx dayAbbrs 0 s with
  | none => none
  | some (_, r1) =>
    match r1 with
    | ',' :: r2 =>
      match takeWs1 r2 with
      | none => none
      | some r3 =>
        match pDay r3 with
        | none => none
        | some (d, r4) =>
          match takeWs1 r4 with
          | none => none
          | some r5 =>
            match matchAltsIdx monthAbbrs 0 r5 with
            | none => none
            | some (mi0, r6) =>
              match takeWs1 r6 with
              | none => none
              | some r7 =>
                match pYear4 r7 with
                | none => none
                | some (y, r8) =>
                  match takeWs1 r8 with
                  | none => none
                  | some r9 =>
                    match pHour r9 with
                    | none => none
                    | some (hh, r10) =>
                      match r10 with
                      | ':' :: r11 =>
                        match pMin r11 with
                        | none => none
                        | some (mm, r12) =>
                          match r12 with
                          | ':' :: r13 =>
                            match pSec r13 with
                            | none => none
                            | some (ss, r14) =>
                              match takeWs1 r14 with
                              | none => none
                              | some r15 =>
                                match pTz r15 with
                                | none => none
                                | some (off, r16) =>
                                  if r16 = [] then
                                    mkDatetime y (mi0 + 1) d hh mm ss (some off)
                                  else none
                          | _ => none
                      | _ => none
    | _ => none

/-- Model of `parse_email_date` (sync_emails.py lines 86-106): reject an absent
or empty header, try the standard mail-date parser, then the
fixed-format fallback on the header with any trailing parenthesized
timezone name stripped. -/
def parse_email_date (dateHeader : Option String) : Option PyDatetime :=
  match dateHeader with
  | none => none
  | some s =>
    if s.data = [] then none
    else
      match parsedate_to_datetime s.data with
      | some dt => some dt
      | none => strptimeFixed (stripTzName s.data)

/-- Decimal digit character. -/
def digitCh (n : Nat) : Char := Char.ofNat (48 + n)

/-- Two-digit zero-padded decimal rendering. -/
def pad2 (n : Nat) : List Char := [digitCh (n / 10 % 10), digitCh (n % 10)]

/-- Four-digit zero-padded decimal rendering. -/
def pad4 (n : Nat) : List Char :=
  [digitCh (n / 1000 % 10), digitCh (n / 100 % 10), digitCh (n / 10 % 10), digitCh (n % 10)]

/-- Model of `datetime.strftime('%Y-%m-%d')` over the validated field ranges. -/
def strftimeYMD (dt : PyDatetime) : String :=
  String.mk (pad4 dt.year.toNat ++ '-' :: (pad2 dt.month ++ '-' :: pad2 dt.day.toNat))

example :
    parse_email_date (some "Mon, 03 Jun 2024 07:15:00 -0400") =
      some ⟨2024, 6, 3, 7, 15, 0, some (-14400)⟩ := by decide

example :
    parse_email_date (some "Mon, 03 Jun 2024 07:15:00 +0000 (UTC)") =
      some ⟨2024, 6, 3, 7, 15, 0, some 0⟩ := by decide

example : parse_email_date (some "hello") = none := by decide

example : parse_email_date none = none := rfl

example :
    strptimeFixed "Mon, 3 Jun 2024 07:15:00 -0400".data =
      some ⟨2024, 6, 3, 7, 15, 0, some (-14400)⟩ := by decide

example :
    stripTzName "Mon, 03 Jun 2024 07:15:00 +0000 (UTC)  ".data =
      "Mon, 03 Jun 2024 07:15:00 +0000".data := by decide

example :
    (parse_email_date (some "Mon, 03 Jun 2024 07:15:00 -0400")).map strftimeYMD =
      some "2024-06-03" := by decide

example :
    parse_email_date (some "03 Jun 2024 07:15:00 EST") =
      some ⟨2024, 6, 3, 7, 15, 0, some (-18000)⟩ := by decide

example : parse_email_date (some "Fri, 30 Feb 2024 07:15:00 -0400") = none := by decide

/-! ## Message model, body selection, per-message processing -/

/-- One part of a (possibly multipart) message as `get_email_body`
reads it: its declared media type, the `Content-Disposition` header
value when present, and the result of
`get_payload(decode=True).decode(charset, errors='replace')` —
`none` when that raises (absent payload or unknown charset), which the
source catches per part. -/
structure BodyPart where
  contentType : String
  contentDisposition : Option String
  payload : Option String
deriving DecidableEq, Repr

/-- A message body: either not multipart (a single payload, used
regardless of its declared type) or multipart, given as the part list
that `msg.walk()` yields, in traversal order (container parts appear
in the list with their `multipart/...` media type). -/
inductive MsgBody where
  | single (payload : Option String)
  | multi (parts : List BodyPart)
deriving DecidableEq, Repr

/-- A parsed email message, reduced to what `process_email` reads. -/
structure Msg where
  dateHeader : Option String
  subjectHeader : Option String
  body : MsgBody
deriving DecidableEq, Repr

/-- Substring test (`"attachment" in content_disposition`). -/
def listInfix (pat s : List Char) : Bool :=
  decide (pat <:+: s)

/-- Model of `"attachment" in str(part.get("Content-Disposition"))`
(`str(None)` is the four-letter string `"None"`). -/
def isAttachment (p : BodyPart) : Bool :=
  listInfix "attachment".data (p.contentDisposition.getD "None").data

/-- The multipart loop of `get_email_body` (lines 174-195): walk the
parts, skip attachments, return the first `text/html` part that
decodes (ending the search), otherwise remember the first decodable
`text/plain` part seen while `body` is still empty. -/
def walkParts : List BodyPart → String → String
  | [], body => body
  | p :: rest, body =>
    if isAttachment p then walkParts rest body
    else if p.contentType = "text/html" then
      match p.payload with
      | some s => s
      | none => walkParts rest body
    else if p.contentType = "text/plain" ∧ body = "" then
      match p.payload with
      | some s => walkParts rest s
      | none => walkParts rest body
    else walkParts rest body

/-- Model of `get_email_body` (sync_emails.py lines 169-204). -/
def get_email_body (m : Msg) : String :=
  match m.body with
  | MsgBody.multi parts => walkParts parts ""
  | MsgBody.single payload =>
    match payload with
    | some s => s
    | none => ""

/-- Model of `decode_email_subject` for headers without RFC 2047 encoded words
(no claim exercises encoded words): the header text itself, or the
empty string for an absent header (`msg.get('Subject', '')`). -/
def decode_email_subject (subject : Option String) : String := subject.getD ""

/-- The workout record assembled by `process_email` (lines 233-237):
`workout_date`, `email_subject`, and the four metric fields. -/
structure SyncRecord where
  workout_date : String
  email_subject : String
  treadmill_distance : Option PyFloat
  rower_distance : Option Int
  splat_points : Option Int
  calories : Option Int
deriving DecidableEq, Repr

/-- Model of `process_email` after a successful fetch (lines 216-241): resolve
the date (reject on failure), decode the subject, select the body
(reject when empty), parse the metrics (the outer `except` turns an
uncaught `ValueError` from `parse_workout_data` into `None`), and
assemble the record. -/
def processMsg (m : Msg) : Option SyncRecord :=
  match parse_email_date m.dateHeader with
  | none => none
  | some dt =>
    let subject := decode_email_subject m.subjectHeader
    let body := get_email_body m
    if body = "" then none
    else
      match parse_workout_data body with
      | Except.error _ => none
      | Except.ok d =>
        some ⟨strftimeYMD dt, subject, d.treadmill_distance, d.rower_distance,
              d.splat_points, d.calories⟩

/-- Model of `process_email` (lines 206-241) including the fetch: `none` input
models a failed or exception-raising fetch of the message. -/
def process_email (fetched : Option Msg) : Option SyncRecord :=
  match fetched with
  | none => none
  | some m => processMsg m

/-! ## Store sync and orchestration -/

/-- Behavior of the external Supabase store on one record: the
existence check raises, the insert raises, or both calls succeed. -/
inductive StoreStep where
  | ok
  | checkRaises
  | insertRaises
deriving DecidableEq, Repr

/-- The store collaborator: the set of `workout_date` values already
present, and the per-call behavior for each successive record. -/
structure StoreModel where
  existing : List String
  step : Nat → StoreStep

/-- The loop of `sync_to_supabase` (lines 248-267): returns
(inserted, skipped) and threads the store state (a successful insert
makes the date visible to later duplicate checks). -/
def syncLoop (step : Nat → StoreStep) : List SyncRecord → List String → Nat → Nat × Nat
  | [], _, _ => (0, 0)
  | w :: rest, db, i =>
    match step i with
    | StoreStep.checkRaises =>
      let r := syncLoop step rest db (i + 1); (r.1, r.2 + 1)
    | s =>
      if w.workout_date ∈ db then
        let r := syncLoop step rest db (i + 1); (r.1, r.2 + 1)
      else
        match s with
        | StoreStep.insertRaises =>
          let r := syncLoop step rest db (i + 1); (r.1, r.2 + 1)
        | _ =>
          let r := syncLoop step rest (w.workout_date :: db) (i + 1); (r.1 + 1, r.2)

/-- Model of `sync_to_supabase` (lines 243-268). -/
def sync_to_supabase (st : StoreModel) (workouts : List SyncRecord) : Nat × Nat :=
  syncLoop st.step workouts st.existing 0

/-- Fifty equals signs, `"=" * 50`. -/
def eq50 : String := String.mk (List.replicate 50 '=')

/-- The console output of `main` (lines 270-316), with the mailbox and
store collaborators abstracted: `fetches` is the per-message fetch
result for each id the search returned. Per-message progress lines and
the per-record prints inside `sync_to_supabase` are not modelled; the
headers, search/count lines, and the final summary block are. -/
def mainOutput (fetches : List (Option Msg)) (st : StoreModel) : List String :=
  let hdr := [eq50, "OTF Email Sync", eq50,
              "Searching for emails: (FROM \"orangetheoryfitness\" SUBJECT \"workout\")",
              "Found " ++ toString fetches.length ++ " OTF emails"]
  if fetches.length = 0 then hdr ++ ["No OTF emails found"]
  else
    let workouts := fetches.filterMap process_email
    let parsed := ["", "Successfully parsed " ++ toString workouts.length ++ " workout emails"]
    if workouts.isEmpty then hdr ++ parsed
    else
      let r := sync_to_supabase st workouts
      hdr ++ parsed ++
        ["", eq50, "Sync complete!",
         "  Found: " ++ toString fetches.length ++ " emails",
         "  Parsed: " ++ toString workouts.length ++ " workouts",
         "  Inserted: " ++ toString r.1 ++ " new records",
         "  Skipped: " ++ toString r.2 ++ " (duplicates or errors)",
         eq50]

/-! ## Shared lemmas -/

theorem reSearch_cons_some {α : Type} (p : List Char → Option α) (c : Char) (cs : List Char)
    (r : α) (h : p (c :: cs) = some r) : reSearch p (c :: cs) = some r := by
  simp [reSearch, h]

theorem reSearch_append_none {α : Type} (p : List Char → Option α) (pre s : List Char)
    (h : ∀ i < pre.length, p (List.drop i (pre ++ s)) = none) :
    reSearch p (pre ++ s) = reSearch p s := by
  induction pre with
  | nil => simp
  | cons c cs ih =>
    have h0 := h 0 (by simp)
    simp only [List.drop_zero, List.cons_append] at h0
    show reSearch p (c :: (cs ++ s)) = reSearch p s
    simp only [reSearch, h0]
    exact ih (fun i hi => by
      have := h (i + 1) (by simp; omega)
      simpa using this)

theorem walkParts_all_attach (parts : List BodyPart)
    (h : ∀ p ∈ parts, isAttachment p = true) : ∀ b, walkParts parts b = b := by
  induction parts with
  | nil => intro b; rfl
  | cons q qs ih =>
    intro b
    have hq := h q (by simp)
    simp only [walkParts, hq, if_true]
    exact ih (fun p hp => h p (by simp [hp])) b

/-! ## Claim C1 -/

/-- The input text of the spec's end-to-end scenario. -/
def c1Text : String :=
  "12 SPLAT POINTS ... TREADMILL PERFORMANCE TOTALS 3.6 miles Total Distance ... ROWER PERFORMANCE TOTALS 860 m Total Distance ... 674 CALORIES BURNED"

/-- The message of the end-to-end scenario. -/
def c1Msg : Msg :=
  ⟨some "Mon, 03 Jun 2024 07:15:00 -0400", some "Way to conquer that workout",
   MsgBody.single (some c1Text)⟩

/-- C1: the pipeline (date resolver + field extractor + record
assembler) maps the end-to-end scenario input, with transmission-date
header `Mon, 03 Jun 2024 07:15:00 -0400`, to a record with
`workout_date = "2024-06-03"`, `splat_points = 12`,
`treadmill_distance = 3.6`, `rower_distance = 860`, `calories = 674`. -/
theorem claim_C1_end_to_end :
    processMsg c1Msg =
      some ⟨"2024-06-03", "Way to conquer that workout",
            some ⟨36, 1⟩, some 860, some 12, some 674⟩ ∧
    PyFloat.val ⟨36, 1⟩ = 3.6 := by
  constructor
  · decide
  · norm_num [PyFloat.val]

/-! ## Claim C2 -/

/-- C2 counterexample: `parse_workout_data` does not always return
normally — on a text where the rower capture `([\d,]+)` matches only a
comma, `int(match.group(1).replace(',', ''))` is `int('')`, which
raises `ValueError`. -/
theorem claim_C2_counterexample :
    parse_workout_data "ROWER PERFORMANCE TOTALS , m" =
      Except.error "ValueError: invalid literal for int() with base 10" := by decide

/-- Characterization of `extractFields` when the rower capture (if
any) contains a digit. -/
theorem extractFields_spec (text : List Char)
    (h : ∀ g, reSearch rowerAt text = some g → g.filter (fun c => !(c == ',')) ≠ []) :
    extractFields text = Except.ok
      ⟨(reSearch treadAt text).map treadVal,
       (reSearch rowerAt text).map
         (fun g => ((digitsVal (g.filter (fun c => !(c == ','))) : Nat) : Int)),
       (reSearch splatAt text).map (fun n => (n : Int)),
       (reSearch calAt text).map (fun n => (n : Int))⟩ := by
  unfold extractFields
  cases hr : reSearch rowerAt text with
  | none => simp
  | some g =>
    cases hf : g.filter (fun c => !(c == ',')) with
    | nil => exact absurd hf (h g hr)
    | cons d ds => simp [Option.map, hf]

/-- C2 (amended): whenever the rower capture (if any) contains at
least one digit, `parse_workout_data` returns normally with a record
whose four fields come exactly from their own label-anchored searches
(absent fields stay `none`, never zero); text containing only
`674 CALORIES BURNED` yields calories 674 with the other three fields
absent. -/
theorem claim_C2_amended :
    (∀ t : String,
      (∀ g, reSearch rowerAt (soupText t.data) = some g →
            g.filter (fun c => !(c == ',')) ≠ []) →
      ∃ r, parse_workout_data t = Except.ok r ∧
        r.treadmill_distance = (reSearch treadAt (soupText t.data)).map treadVal ∧
        r.rower_distance = (reSearch rowerAt (soupText t.data)).map
            (fun g => ((digitsVal (g.filter (fun c => !(c == ','))) : Nat) : Int)) ∧
        r.splat_points = (reSearch splatAt (soupText t.data)).map (fun n => (n : Int)) ∧
        r.calories = (reSearch calAt (soupText t.data)).map (fun n => (n : Int))) ∧
    parse_workout_data "674 CALORIES BURNED" =
      Except.ok ⟨none, none, none, some 674⟩ := by
  refine ⟨fun t h => ?_, by decide⟩
  exact ⟨_, extractFields_spec (soupText t.data) h, rfl, rfl, rfl, rfl⟩

/-- Witness for C2 (amended) at the calories-only text. -/
theorem claim_C2_amended_witness :
    ∃ r, parse_workout_data "674 CALORIES BURNED" = Except.ok r ∧
      r.treadmill_distance =
        (reSearch treadAt (soupText ("674 CALORIES BURNED").data)).map treadVal ∧
      r.rower_distance = (reSearch rowerAt (soupText ("674 CALORIES BURNED").data)).map
          (fun g => ((digitsVal (g.filter (fun c => !(c == ','))) : Nat) : Int)) ∧
      r.splat_points =
        (reSearch splatAt (soupText ("674 CALORIES BURNED").data)).map (fun n => (n : Int)) ∧
      r.calories =
        (reSearch calAt (soupText ("674 CALORIES BURNED").data)).map (fun n => (n : Int)) :=
  claim_C2_amended.1 "674 CALORIES BURNED"
    (fun g hg => by
      rw [show reSearch rowerAt (soupText ("674 CALORIES BURNED").data) = none from by decide]
        at hg
      cases hg)

/-! ## Claim C5 (counterexample part) -/

/-- C5 counterexample: `"ROWER PERFORMANCE TOTALS 1,234 miles"`
contains the substring `"ROWER PERFORMANCE TOTALS 1,234 m"` and has no
earlier rower-pattern match, yet extraction yields no rower distance at
all (the `\b` after `m` fails inside `miles`), not 1234. -/
theorem claim_C5_counterexample :
    listInfix "ROWER PERFORMANCE TOTALS 1,234 m".data
        "ROWER PERFORMANCE TOTALS 1,234 miles".data = true ∧
    reSearch rowerAt "ROWER PERFORMANCE TOTALS 1,234 miles".data = none ∧
    parse_workout_data "ROWER PERFORMANCE TOTALS 1,234 miles" =
      Except.ok ⟨none, none, none, none⟩ := by
  exact ⟨by decide, by decide, by decide⟩

/-! ## Claim C6 -/

/-- C6: a message whose transmission-date header is absent, or whose
header value is rejected by both the standard mail-date parser and the
fixed-format fallback parser, produces no record. -/
theorem claim_C6_no_date_no_record (m : Msg)
    (h : m.dateHeader = none ∨
      ∃ s, m.dateHeader = some s ∧ parsedate_to_datetime s.data = none ∧
        strptimeFixed (stripTzName s.data) = none) :
    processMsg m = none := by
  have hd : parse_email_date m.dateHeader = none := by
    rcases h with h | ⟨s, hs, h1, h2⟩
    · rw [h]; rfl
    · rw [hs]
      simp only [parse_email_date, h1, h2]
      split <;> rfl
  simp only [processMsg, hd]

/-- Witness for C6: a concrete message with an unparsable date header. -/
theorem claim_C6_witness :
    processMsg ⟨some "not a date", some "subject", MsgBody.single (some "674 CALORIES BURNED")⟩
      = none :=
  claim_C6_no_date_no_record _
    (Or.inr ⟨"not a date", rfl, by decide, by decide⟩)

/-! ## Claim C7 -/

/-- C7: a multipart message all of whose parts are attachments gets the
empty body from the body selector, and the record assembler rejects it:
no record is produced. -/
theorem claim_C7_attachments_only (parts : List BodyPart) (dh sh : Option String)
    (h : ∀ p ∈ parts, isAttachment p = true) :
    get_email_body ⟨dh, sh, MsgBody.multi parts⟩ = "" ∧
    processMsg ⟨dh, sh, MsgBody.multi parts⟩ = none := by
  have hb : get_email_body ⟨dh, sh, MsgBody.multi parts⟩ = "" :=
    walkParts_all_attach parts h ""
  refine ⟨hb, ?_⟩
  simp only [processMsg]
  cases hd : parse_email_date dh with
  | none => rfl
  | some dt => simp [hb]

/-- Witness for C7: one attachment part. -/
theorem claim_C7_witness :
    get_email_body ⟨some "Mon, 03 Jun 2024 07:15:00 -0400", none,
        MsgBody.multi [⟨"text/html", some "attachment; filename=x.html", some "<p>hi</p>"⟩]⟩
      = "" ∧
    processMsg ⟨some "Mon, 03 Jun 2024 07:15:00 -0400", none,
        MsgBody.multi [⟨"text/html", some "attachment; filename=x.html", some "<p>hi</p>"⟩]⟩
      = none :=
  claim_C7_attachments_only _ _ _ (by decide)

/-! ## Claim C10 -/

theorem syncLoop_count (step : Nat → StoreStep) :
    ∀ (ws : List SyncRecord) (db : List String) (i : Nat),
      (syncLoop step ws db i).1 + (syncLoop step ws db i).2 = ws.length := by
  intro ws
  induction ws with
  | nil => intro db i; rfl
  | cons w rest ih =>
    intro db i
    simp only [syncLoop]
    cases step i with
    | checkRaises => have := ih db (i + 1); simp; omega
    | ok =>
      by_cases hmem : w.workout_date ∈ db
      · have := ih db (i + 1); simp [hmem]; omega
      · have := ih (w.workout_date :: db) (i + 1); simp [hmem]; omega
    | insertRaises =>
      by_cases hmem : w.workout_date ∈ db
      · have := ih db (i + 1); simp [hmem]; omega
      · have := ih db (i + 1); simp [hmem]; omega

/-- C10: the store-sync loop accounts for every candidate record
exactly once — the inserted and skipped counts always sum to the number
of candidate records, whatever the store's behavior (duplicates and
per-record store errors are skipped, nothing is dropped and nothing
aborts the loop). -/
theorem claim_C10_sync_accounting (st : StoreModel) (workouts : List SyncRecord) :
    (sync_to_supabase st workouts).1 + (sync_to_supabase st workouts).2 =
      workouts.length :=
  syncLoop_count st.step workouts st.existing 0

/-! ## Claim C4 -/

theorem walkParts_first_html (hp : BodyPart) (post : List BodyPart) (s : String)
    (hhtml : hp.contentType = "text/html") (hatt : isAttachment hp = false)
    (hpay : hp.payload = some s) :
    ∀ (pre : List BodyPart),
      (∀ p ∈ pre, ¬(p.contentType = "text/html" ∧ isAttachment p = false)) →
      ∀ b, walkParts (pre ++ hp :: post) b = s := by
  intro pre
  induction pre with
  | nil =>
    intro _ b
    simp only [List.nil_append, walkParts, hatt, Bool.false_eq_true, if_false]
    rw [if_pos hhtml, hpay]
  | cons q qs ih =>
    intro hpre b
    have hq := hpre q (by simp)
    simp only [List.cons_append, walkParts]
    by_cases hqa : isAttachment q = true
    · simp only [hqa, if_true]
      exact ih (fun p hp' => hpre p (by simp [hp'])) b
    · have hqh : ¬(q.contentType = "text/html") := fun hh =>
        hq ⟨hh, by simpa using hqa⟩
      simp only [hqa, if_false]
      rw [if_neg hqh]
      by_cases hqp : q.contentType = "text/plain" ∧ b = ""
      · rw [if_pos hqp]
        cases hpq : q.payload with
        | none => exact ih (fun p hp' => hpre p (by simp [hp'])) b
        | some s' => exact ih (fun p hp' => hpre p (by simp [hp'])) s'
      · rw [if_neg hqp]
        exact ih (fun p hp' => hpre p (by simp [hp'])) b

/-- C4: for a multipart message that contains a non-attachment
plain-text part and whose first non-attachment HTML part decodes
successfully, the body selector returns exactly that HTML part's
decoded text — the HTML part, not the plain-text part, is the one
analyzed, and the successful decode ends the search. -/
theorem claim_C4_html_preferred (pre : List BodyPart) (hp : BodyPart)
    (post : List BodyPart) (dh sh : Option String) (s : String)
    (hhtml : hp.contentType = "text/html") (hatt : isAttachment hp = false)
    (hpay : hp.payload = some s)
    (hpre : ∀ p ∈ pre, ¬(p.contentType = "text/html" ∧ isAttachment p = false))
    (_hplain : ∃ q ∈ pre ++ hp :: post,
        q.contentType = "text/plain" ∧ isAttachment q = false) :
    get_email_body ⟨dh, sh, MsgBody.multi (pre ++ hp :: post)⟩ = s :=
  walkParts_first_html hp post s hhtml hatt hpay pre hpre ""

/-- Witness for C4: a plain part listed before the HTML part; the HTML
part's decode is what the body selector returns. -/
theorem claim_C4_witness :
    get_email_body ⟨none, none, MsgBody.multi
        ([⟨"text/plain", none, some "plain body"⟩] ++
          ⟨"text/html", none, some "<b>html body</b>"⟩ :: [])⟩ = "<b>html body</b>" :=
  claim_C4_html_preferred [⟨"text/plain", none, some "plain body"⟩]
    ⟨"text/html", none, some "<b>html body</b>"⟩ [] none none "<b>html body</b>"
    rfl (by decide) rfl (by decide)
    ⟨⟨"text/plain", none, some "plain body"⟩, by simp, rfl, by decide⟩

/-! ## Claim C5 (amended part) -/

theorem rowerAt_core_append (post : List Char) :
    rowerAt ("ROWER PERFORMANCE TOTALS 1,234 m".data ++ post) =
      match post with
      | [] => some ['1', ',', '2', '3', '4']
      | c :: _ => if isWordCh c then none else some ['1', ',', '2', '3', '4'] := by
  cases post with
  | nil => rfl
  | cons c t => rfl

/-- C5 (amended): for every normalized text that contains
`ROWER PERFORMANCE TOTALS 1,234 m` at a position not preceded by any
earlier rower-pattern match, and where the character following that
`m` (if any) is not a word character (the `\b` the pattern requires),
extraction succeeds and yields `rower_distance = 1234` — the thousands
separator is stripped before integer conversion. -/
theorem claim_C5_amended (pre post : List Char)
    (h1 : ∀ i < pre.length,
        rowerAt (List.drop i
          (pre ++ ("ROWER PERFORMANCE TOTALS 1,234 m".data ++ post))) = none)
    (h2 : ∀ c cs, post = c :: cs → isWordCh c = false) :
    ∃ r, extractFields (pre ++ ("ROWER PERFORMANCE TOTALS 1,234 m".data ++ post)) =
        Except.ok r ∧ r.rower_distance = some 1234 := by
  have hcore : rowerAt ("ROWER PERFORMANCE TOTALS 1,234 m".data ++ post) =
      some ['1', ',', '2', '3', '4'] := by
    rw [rowerAt_core_append]
    cases post with
    | nil => rfl
    | cons c t =>
      have hw := h2 c t rfl
      simp [hw]
  have hsearch : reSearch rowerAt
      (pre ++ ("ROWER PERFORMANCE TOTALS 1,234 m".data ++ post)) =
      some ['1', ',', '2', '3', '4'] := by
    rw [reSearch_append_none _ _ _ h1]
    exact reSearch_cons_some _ _ _ _ hcore
  have hne : ∀ g, reSearch rowerAt
      (pre ++ ("ROWER PERFORMANCE TOTALS 1,234 m".data ++ post)) = some g →
      g.filter (fun c => !(c == ',')) ≠ [] := by
    intro g hg
    rw [hsearch] at hg
    cases hg
    decide
  refine ⟨_, extractFields_spec _ hne, ?_⟩
  rw [hsearch]
  show Option.map (fun g => ((digitsVal (g.filter (fun c => !(c == ','))) : Nat) : Int))
      (some ['1', ',', '2', '3', '4']) = some 1234
  decide

/-- Witness for C5 (amended): surrounding context on both sides. -/
theorem claim_C5_witness :
    ∃ r, extractFields ("x ".data ++
        ("ROWER PERFORMANCE TOTALS 1,234 m".data ++ " Total Distance".data)) =
        Except.ok r ∧ r.rower_distance = some 1234 :=
  claim_C5_amended "x ".data " Total Distance".data (by decide)
    (fun c cs h => by cases h; rfl)

/-! ## Claim C8 -/

/-- The four labeled segments of the scenario text. -/
def otfSeg1 : List Char := "12 SPLAT POINTS".data

/-- Treadmill segment. -/
def otfSeg2 : List Char := "TREADMILL PERFORMANCE TOTALS 3.6 miles".data

/-- Rower segment. -/
def otfSeg3 : List Char := "ROWER PERFORMANCE TOTALS 860 m".data

/-- Calories segment. -/
def otfSeg4 : List Char := "674 CALORIES BURNED".data

/-- The four segments in scenario order. -/
def otfSegs : List (List Char) := [otfSeg1, otfSeg2, otfSeg3, otfSeg4]

/-- C8: field extraction is order-independent across the four labeled
values — for every permutation of the four labeled segments (joined by
single spaces), the extractor assigns the same value to the same
field; no number adjacent to a different label is misattributed. -/
theorem claim_C8_order_independent (l : List (List Char)) (h : l.Perm otfSegs) :
    extractFields (joinSp l) =
      Except.ok ⟨some ⟨36, 1⟩, some 860, some 12, some 674⟩ := by
  have hmem : l ∈ otfSegs.permutations' := List.mem_permutations'.2 h
  rw [show otfSegs.permutations' = [
      [otfSeg1, otfSeg2, otfSeg3, otfSeg4], [otfSeg2, otfSeg1, otfSeg3, otfSeg4],
      [otfSeg2, otfSeg3, otfSeg1, otfSeg4], [otfSeg2, otfSeg3, otfSeg4, otfSeg1],
      [otfSeg1, otfSeg3, otfSeg2, otfSeg4], [otfSeg3, otfSeg1, otfSeg2, otfSeg4],
      [otfSeg3, otfSeg2, otfSeg1, otfSeg4], [otfSeg3, otfSeg2, otfSeg4, otfSeg1],
      [otfSeg1, otfSeg3, otfSeg4, otfSeg2], [otfSeg3, otfSeg1, otfSeg4, otfSeg2],
      [otfSeg3, otfSeg4, otfSeg1, otfSeg2], [otfSeg3, otfSeg4, otfSeg2, otfSeg1],
      [otfSeg1, otfSeg2, otfSeg4, otfSeg3], [otfSeg2, otfSeg1, otfSeg4, otfSeg3],
      [otfSeg2, otfSeg4, otfSeg1, otfSeg3], [otfSeg2, otfSeg4, otfSeg3, otfSeg1],
      [otfSeg1, otfSeg4, otfSeg2, otfSeg3], [otfSeg4, otfSeg1, otfSeg2, otfSeg3],
      [otfSeg4, otfSeg2, otfSeg1, otfSeg3], [otfSeg4, otfSeg2, otfSeg3, otfSeg1],
      [otfSeg1, otfSeg4, otfSeg3, otfSeg2], [otfSeg4, otfSeg1, otfSeg3, otfSeg2],
      [otfSeg4, otfSeg3, otfSeg1, otfSeg2], [otfSeg4, otfSeg3, otfSeg2, otfSeg1]]
    from by decide] at hmem
  simp only [List.mem_cons, List.not_mem_nil, or_false] at hmem
  rcases hmem with rfl | rfl | rfl | rfl | rfl | rfl | rfl | rfl | rfl | rfl | rfl | rfl |
    rfl | rfl | rfl | rfl | rfl | rfl | rfl | rfl | rfl | rfl | rfl | rfl
  all_goals decide

/-- Witness for C8 at a non-scenario order. -/
theorem claim_C8_witness :
    extractFields (joinSp [otfSeg4, otfSeg3, otfSeg2, otfSeg1]) =
      Except.ok ⟨some ⟨36, 1⟩, some 860, some 12, some 674⟩ :=
  claim_C8_order_independent [otfSeg4, otfSeg3, otfSeg2, otfSeg1] (by decide)

/-! ## Claim C3 -/

/-- A store with nothing in it that never raises. -/
def st0 : StoreModel := ⟨[], fun _ => StoreStep.ok⟩

/-- C3 counterexample: one found email whose fetch/processing yields no
record — `main` prints the parsed-count line but no final summary block
(the summary is guarded by `if workouts:`), refuting the claim that the
four-count summary always prints. -/
theorem claim_C3_counterexample :
    mainOutput [none] st0 =
      [eq50, "OTF Email Sync", eq50,
       "Searching for emails: (FROM \"orangetheoryfitness\" SUBJECT \"workout\")",
       "Found 1 OTF emails", "", "Successfully parsed 0 workout emails"] ∧
    "Sync complete!" ∉ mainOutput [none] st0 ∧
    "  Inserted: 0 new records" ∉ mainOutput [none] st0 := by
  refine ⟨?_, ?_, ?_⟩ <;> decide

theorem found_ne_sync (x y : String) : ("Found " ++ x ++ y) ≠ "Sync complete!" := by
  intro h
  have h2 : ("Found " ++ x ++ y).data.take 2 = "Sync complete!".data.take 2 := by rw [h]
  rw [show ("Found " ++ x ++ y).data.take 2 = ['F', 'o'] from rfl] at h2
  exact absurd h2 (by decide)

theorem parsed_ne_sync (x y : String) :
    ("Successfully parsed " ++ x ++ y) ≠ "Sync complete!" := by
  intro h
  have h2 : ("Successfully parsed " ++ x ++ y).data.take 2 =
      "Sync complete!".data.take 2 := by rw [h]
  rw [show ("Successfully parsed " ++ x ++ y).data.take 2 = ['S', 'u'] from rfl] at h2
  exact absurd h2 (by decide)

/-- C3 (amended): the entry point prints the final summary block with
the found/parsed/inserted/skipped counts exactly when at least one
workout record was parsed; when zero records parse from the found
emails — in particular when every message fails extraction — the
summary block is not printed (only the header and count lines are). -/
theorem claim_C3_amended (fetches : List (Option Msg)) (st : StoreModel) :
    (fetches.filterMap process_email ≠ [] →
      "Sync complete!" ∈ mainOutput fetches st ∧
      ("  Found: " ++ toString fetches.length ++ " emails") ∈ mainOutput fetches st ∧
      ("  Parsed: " ++ toString (fetches.filterMap process_email).length ++ " workouts")
        ∈ mainOutput fetches st ∧
      ("  Inserted: " ++ toString (sync_to_supabase st (fetches.filterMap process_email)).1
        ++ " new records") ∈ mainOutput fetches st ∧
      ("  Skipped: " ++ toString (sync_to_supabase st (fetches.filterMap process_email)).2
        ++ " (duplicates or errors)") ∈ mainOutput fetches st) ∧
    (fetches.filterMap process_email = [] →
      "Sync complete!" ∉ mainOutput fetches st) := by
  constructor
  · intro hne
    have hfet : fetches.length ≠ 0 := by
      intro h0
      rw [List.length_eq_zero.1 h0] at hne
      exact hne rfl
    unfold mainOutput
    rw [if_neg hfet]
    rw [if_neg (by simpa [List.isEmpty_iff] using hne)]
    refine ⟨?_, ?_, ?_, ?_, ?_⟩ <;> simp
  · intro hemp
    simp only [mainOutput, hemp]
    by_cases hfet : fetches.length = 0
    · rw [if_pos hfet, hfet]
      decide
    · rw [if_neg hfet]
      rw [if_pos (show ([] : List SyncRecord).isEmpty = true from rfl)]
      intro hmem
      simp only [List.mem_append, List.mem_cons, List.not_mem_nil, or_false] at hmem
      rcases hmem with (h | h | h | h | h) | (h | h)
      · exact absurd h (by decide)
      · exact absurd h (by decide)
      · exact absurd h (by decide)
      · exact absurd h (by decide)
      · exact found_ne_sync _ _ h.symm
      · exact absurd h (by decide)
      · exact parsed_ne_sync _ _ h.symm

/-- Witness for C3 (amended): one successfully parsed email makes the
summary lines appear. -/
theorem claim_C3_witness :
    "Sync complete!" ∈ mainOutput [some c1Msg] st0 ∧
    ("  Found: " ++ toString ([some c1Msg] : List (Option Msg)).length ++ " emails")
      ∈ mainOutput [some c1Msg] st0 ∧
    ("  Parsed: " ++
        toString (([some c1Msg] : List (Option Msg)).filterMap process_email).length ++
        " workouts") ∈ mainOutput [some c1Msg] st0 ∧
    ("  Inserted: " ++
        toString (sync_to_supabase st0
          (([some c1Msg] : List (Option Msg)).filterMap process_email)).1 ++
        " new records") ∈ mainOutput [some c1Msg] st0 ∧
    ("  Skipped: " ++
        toString (sync_to_supabase st0
          (([some c1Msg] : List (Option Msg)).filterMap process_email)).2 ++
        " (duplicates or errors)") ∈ mainOutput [some c1Msg] st0 :=
  (claim_C3_amended [some c1Msg] st0).1 (by decide)

/-! ## Claim C9: infrastructure

The claim quantifies over valid fixed-format mail dates followed by a
parenthesized timezone name. Such a header is rendered from its
components below (`mkFixedHeader`), and the standard mail-date parser
model is evaluated on it symbolically. -/

/-- The time-of-day token `HH:MM:SS`. -/
def timeTok (hh mi ss : Nat) : List Char :=
  pad2 hh ++ ':' :: (pad2 mi ++ ':' :: pad2 ss)

/-- The numeric-offset timezone token `±HHMM` (`sg = true` for `+`). -/
def tzTok (sg : Bool) (oh om : Nat) : List Char :=
  (if sg then '+' else '-') :: (pad2 oh ++ pad2 om)

/-- The trailing parenthesized timezone-name token `(NAME)`. -/
def tzNameTok (nm : List Char) : List Char := '(' :: (nm ++ [')'])

/-- The whitespace-separated tokens of a fixed-format mail date with a
trailing parenthesized timezone name:
`Day, DD Mon YYYY HH:MM:SS ±HHMM (NAME)`. -/
def fixedHeaderToks (w d m y hh mi ss : Nat) (sg : Bool) (oh om : Nat)
    (nm : List Char) : List (List Char) :=
  [dayAbbrs.getD w [] ++ [','], pad2 d, monthAbbrs.getD (m - 1) [], pad4 y,
   timeTok hh mi ss, tzTok sg oh om, tzNameTok nm]

/-- The rendered header string. -/
def mkFixedHeader (w d m y hh mi ss : Nat) (sg : Bool) (oh om : Nat)
    (nm : List Char) : String :=
  String.mk (joinSp (fixedHeaderToks w d m y hh mi ss sg oh om nm))

theorem mod10_le (n : Nat) : n % 10 ≤ 9 :=
  Nat.le_of_lt_succ (Nat.mod_lt _ (by norm_num))

theorem digitCh_toNat {k : Nat} (hk : k ≤ 9) : (digitCh k).toNat = 48 + k := by
  interval_cases k <;> rfl

theorem isDigitCh_digitCh {k : Nat} (hk : k ≤ 9) : isDigitCh (digitCh k) = true := by
  interval_cases k <;> rfl

theorem isSpaceCh_digitCh {k : Nat} (hk : k ≤ 9) : isSpaceCh (digitCh k) = false := by
  interval_cases k <;> rfl

theorem digitCh_beq_comma {k : Nat} (hk : k ≤ 9) : (digitCh k == ',') = false := by
  interval_cases k <;> rfl

theorem digitCh_beq_colon {k : Nat} (hk : k ≤ 9) : (digitCh k == ':') = false := by
  interval_cases k <;> rfl

theorem digit_nonspace {c : Char} (h : isDigitCh c = true) : isSpaceCh c = false := by
  simp only [isDigitCh, Bool.and_eq_true, decide_eq_true_eq] at h
  simp only [isSpaceCh, Bool.or_eq_false_iff, decide_eq_false_iff_not]
  omega

theorem upper_nonspace {c : Char} (h : isUpperAZ c = true) : isSpaceCh c = false := by
  simp only [isUpperAZ, Bool.and_eq_true, decide_eq_true_eq] at h
  simp only [isSpaceCh, Bool.or_eq_false_iff, decide_eq_false_iff_not]
  omega

theorem digit_beq_plus {c : Char} (h : isDigitCh c = true) : (c == '+') = false := by
  simp only [isDigitCh, Bool.and_eq_true, decide_eq_true_eq] at h
  have : c ≠ '+' := by
    intro hc
    subst hc
    simp at h
  simp [this]

theorem digit_beq_minus {c : Char} (h : isDigitCh c = true) : (c == '-') = false := by
  simp only [isDigitCh, Bool.and_eq_true, decide_eq_true_eq] at h
  have : c ≠ '-' := by
    intro hc
    subst hc
    simp at h
  simp [this]

theorem pad2_digits (n : Nat) : ∀ c ∈ pad2 n, isDigitCh c = true := by
  intro c hc
  simp only [pad2, List.mem_cons, List.not_mem_nil, or_false] at hc
  rcases hc with rfl | rfl <;> exact isDigitCh_digitCh (mod10_le _)

theorem pad4_digits (n : Nat) : ∀ c ∈ pad4 n, isDigitCh c = true := by
  intro c hc
  simp only [pad4, List.mem_cons, List.not_mem_nil, or_false] at hc
  rcases hc with rfl | rfl | rfl | rfl <;> exact isDigitCh_digitCh (mod10_le _)

theorem pad2_nonspace (n : Nat) : ∀ c ∈ pad2 n, isSpaceCh c = false :=
  fun c hc => digit_nonspace (pad2_digits n c hc)

theorem pad4_nonspace (n : Nat) : ∀ c ∈ pad4 n, isSpaceCh c = false :=
  fun c hc => digit_nonspace (pad4_digits n c hc)

theorem digitsVal_pad2 {n : Nat} (hn : n ≤ 99) : digitsVal (pad2 n) = n := by
  simp only [digitsVal, pad2, List.foldl, digitCh_toNat (mod10_le _)]
  omega

theorem digitsVal_pad4 {n : Nat} (hn : n ≤ 9999) : digitsVal (pad4 n) = n := by
  simp only [digitsVal, pad4, List.foldl, digitCh_toNat (mod10_le _)]
  omega

theorem digitsVal_pad2_append {a b : Nat} (ha : a ≤ 99) (hb : b ≤ 99) :
    digitsVal (pad2 a ++ pad2 b) = a * 100 + b := by
  simp only [digitsVal, pad2, List.cons_append, List.nil_append, List.foldl,
    digitCh_toNat (mod10_le _)]
  omega

theorem dropWhile_nonspace {s : List Char} (h : ∀ c ∈ s, isSpaceCh c = false) :
    s.dropWhile isSpaceCh = s := by
  cases s with
  | nil => rfl
  | cons c t =>
    rw [List.dropWhile_cons, if_neg]
    simp [h c (by simp)]

theorem stripEnds_nonspace {s : List Char} (h : ∀ c ∈ s, isSpaceCh c = false) :
    stripEnds s = s := by
  unfold stripEnds
  rw [dropWhile_nonspace h,
    dropWhile_nonspace (fun c hc => h c (List.mem_reverse.1 hc)), List.reverse_reverse]

theorem pyInt_digits {s : List Char} (hne : s ≠ []) (hd : ∀ c ∈ s, isDigitCh c = true) :
    pyInt s = some ((digitsVal s : Nat) : Int) := by
  have hns : ∀ c ∈ s, isSpaceCh c = false := fun c hc => digit_nonspace (hd c hc)
  unfold pyInt
  rw [stripEnds_nonspace hns]
  cases s with
  | nil => exact absurd rfl hne
  | cons c t =>
    have hc := hd c (by simp)
    simp only [pyIntCore]
    rw [if_neg (by simp [digit_beq_plus hc]), if_neg (by simp [digit_beq_minus hc]),
      if_pos (by simp only [List.all_eq_true]; exact hd)]

theorem splitWsAux_nonspace_chunk :
    ∀ (t acc rest : List Char), (∀ c ∈ t, isSpaceCh c = false) →
      splitWsAux (t ++ rest) acc = splitWsAux rest (t.reverse ++ acc) := by
  intro t
  induction t with
  | nil => intro acc rest _; simp
  | cons c t' ih =>
    intro acc rest h
    simp only [List.cons_append, splitWsAux, List.append_eq]
    rw [if_neg (by simp [h c (by simp)])]
    rw [ih (c :: acc) rest (fun x hx => h x (by simp [hx]))]
    simp

theorem splitWs_joinSp : ∀ (toks : List (List Char)),
    (∀ t ∈ toks, t ≠ [] ∧ ∀ c ∈ t, isSpaceCh c = false) →
    splitWs (joinSp toks) = toks := by
  intro toks
  induction toks with
  | nil => intro _; rfl
  | cons t ts ih =>
    intro h
    obtain ⟨htne, htns⟩ := h t (by simp)
    cases ts with
    | nil =>
      show splitWsAux (joinSp [t]) [] = [t]
      rw [show joinSp [t] = t ++ [] from by simp [joinSp]]
      rw [splitWsAux_nonspace_chunk t [] [] htns]
      simp only [splitWsAux, List.append_nil]
      rw [if_neg (by simpa using htne)]
      simp
    | cons u us =>
      show splitWsAux (joinSp (t :: u :: us)) [] = t :: u :: us
      rw [show joinSp (t :: u :: us) = t ++ (' ' :: joinSp (u :: us)) from by
        simp [joinSp, List.intersperse_cons_cons]]
      rw [splitWsAux_nonspace_chunk t [] _ htns]
      simp only [splitWsAux, isSpaceCh, List.append_nil]
      rw [if_pos (by decide), if_neg (by simpa using htne)]
      rw [List.reverse_reverse]
      exact congrArg (t :: ·) (ih (fun x hx => h x (by simp [hx])))

theorem dayTok_facts {w : Nat} (hw : w < 7) :
    dayAbbrs.getD w [] ≠ [] ∧ ∀ c ∈ dayAbbrs.getD w [], isSpaceCh c = false := by
  interval_cases w <;> exact ⟨by decide, by decide⟩

theorem monthTok_facts {m : Nat} (h1 : 1 ≤ m) (h2 : m ≤ 12) :
    (monthAbbrs.getD (m - 1) [] ≠ [] ∧
      ∀ c ∈ monthAbbrs.getD (m - 1) [], isSpaceCh c = false) ∧
    List.findIdx? (fun x => x == pyLower (monthAbbrs.getD (m - 1) [])) monthnames =
      some (m - 1) := by
  interval_cases m <;> exact ⟨⟨by decide, by decide⟩, by decide⟩

theorem timeTok_nonspace (hh mi ss : Nat) :
    ∀ c ∈ timeTok hh mi ss, isSpaceCh c = false := by
  intro c hc
  simp only [timeTok, List.mem_append, List.mem_cons] at hc
  rcases hc with h | rfl | h | rfl | h
  · exact pad2_nonspace _ c h
  · rfl
  · exact pad2_nonspace _ c h
  · rfl
  · exact pad2_nonspace _ c h

theorem tzTok_nonspace (sg : Bool) (oh om : Nat) :
    ∀ c ∈ tzTok sg oh om, isSpaceCh c = false := by
  intro c hc
  simp only [tzTok, List.mem_cons, List.mem_append] at hc
  rcases hc with rfl | h | h
  · cases sg <;> rfl
  · exact pad2_nonspace _ c h
  · exact pad2_nonspace _ c h

theorem tzNameTok_nonspace {nm : List Char} (h : ∀ c ∈ nm, isUpperAZ c = true) :
    ∀ c ∈ tzNameTok nm, isSpaceCh c = false := by
  intro c hc
  simp only [tzNameTok, List.mem_cons, List.mem_append, List.mem_singleton,
    List.not_mem_nil, or_false] at hc
  rcases hc with rfl | h2 | rfl
  · rfl
  · exact upper_nonspace (h c h2)
  · rfl

theorem fixedHeaderToks_wf {w d m y hh mi ss oh om : Nat} {sg : Bool} {nm : List Char}
    (hw : w < 7) (hm1 : 1 ≤ m) (hm2 : m ≤ 12) (hnm2 : ∀ c ∈ nm, isUpperAZ c = true) :
    ∀ t ∈ fixedHeaderToks w d m y hh mi ss sg oh om nm,
      t ≠ [] ∧ ∀ c ∈ t, isSpaceCh c = false := by
  intro t ht
  simp only [fixedHeaderToks, List.mem_cons, List.not_mem_nil, or_false] at ht
  rcases ht with rfl | rfl | rfl | rfl | rfl | rfl | rfl
  · refine ⟨by simp, ?_⟩
    intro c hc
    rcases List.mem_append.1 hc with h | h
    · exact (dayTok_facts hw).2 c h
    · simp only [List.mem_singleton] at h; subst h; rfl
  · exact ⟨by simp [pad2], pad2_nonspace d⟩
  · exact ⟨(monthTok_facts hm1 hm2).1.1, (monthTok_facts hm1 hm2).1.2⟩
  · exact ⟨by simp [pad4], pad4_nonspace y⟩
  · exact ⟨by simp [timeTok, pad2], timeTok_nonspace hh mi ss⟩
  · exact ⟨by simp [tzTok], tzTok_nonspace sg oh om⟩
  · exact ⟨by simp [tzNameTok], tzNameTok_nonspace hnm2⟩

theorem pad2_getLast (n : Nat) : (pad2 n).getLast? = some (digitCh (n % 10)) := rfl

theorem pad4_getLast (n : Nat) : (pad4 n).getLast? = some (digitCh (n % 10)) := rfl

theorem timeTok_getLast (hh mi ss : Nat) :
    (timeTok hh mi ss).getLast? = some (digitCh (ss % 10)) := rfl

theorem pad4_head (n : Nat) : (pad4 n).head? = some (digitCh (n / 1000 % 10)) := rfl

theorem pad4_no_colon (y : Nat) :
    List.findIdx? (fun x => x == ':') (pad4 y) = none := by
  simp [pad4, List.findIdx?_cons, digitCh_beq_colon (mod10_le _)]

theorem splitOn1_timeTok (hh mi ss : Nat) :
    splitOn1 ':' (timeTok hh mi ss) = [pad2 hh, pad2 mi, pad2 ss] := by
  simp [timeTok, pad2, splitOn1, splitOnAux, digitCh_beq_colon (mod10_le _)]

theorem lookupTz_tzTok (sg : Bool) (oh om : Nat) :
    lookupTz (pyUpper (tzTok sg oh om)) = none := by
  cases sg <;> rfl

theorem tzTok_head (sg : Bool) (oh om : Nat) :
    (tzTok sg oh om).head? = some (if sg then '+' else '-') := by
  cases sg <;> rfl

theorem pyInt_tzTok {oh om : Nat} (hoh : oh ≤ 99) (hom : om ≤ 99) (sg : Bool) :
    pyInt (tzTok sg oh om) =
      some (if sg then ((oh * 100 + om : Nat) : Int) else -((oh * 100 + om : Nat) : Int)) := by
  have hall : (pad2 oh ++ pad2 om).all isDigitCh = true := by
    simp only [List.all_eq_true]
    intro c hc
    rcases List.mem_append.1 hc with h | h
    · exact pad2_digits _ c h
    · exact pad2_digits _ c h
  have hne : pad2 oh ++ pad2 om ≠ [] := by simp [pad2]
  unfold pyInt
  rw [stripEnds_nonspace (tzTok_nonspace sg oh om)]
  cases sg with
  | true =>
    show pyIntCore ('+' :: (pad2 oh ++ pad2 om)) = _
    simp only [pyIntCore]
    rw [if_pos (show ('+' == '+') = true from rfl)]
    rw [if_pos (And.intro hne hall)]
    rw [digitsVal_pad2_append hoh hom]
    simp
  | false =>
    show pyIntCore ('-' :: (pad2 oh ++ pad2 om)) = _
    simp only [pyIntCore]
    rw [if_neg (show ¬(('-' == '+') = true) from by decide)]
    rw [if_pos (show ('-' == '-') = true from rfl)]
    rw [if_pos (And.intro hne hall)]
    rw [digitsVal_pad2_append hoh hom]
    simp

theorem pdtFields_fixed {d m y hh mi ss oh om : Nat} {sg : Bool}
    (hm1 : 1 ≤ m) (hm2 : m ≤ 12) :
    pdtFields (pad2 d) (monthAbbrs.getD (m - 1) []) (pad4 y) (timeTok hh mi ss)
        (tzTok sg oh om) =
      pdtInts (pad4 y) (pad2 d) (pad2 hh) (pad2 mi) (pad2 ss) m (tzTok sg oh om) := by
  have hmon := (monthTok_facts hm1 hm2).2
  have hadj : (if m - 1 + 1 > 12 then m - 1 + 1 - 12 else m - 1 + 1) = m := by
    rw [if_neg (by omega)]
    omega
  simp only [pdtFields, hmon, hadj, pad2_getLast, pad4_no_colon, pad4_getLast,
    pad4_head, timeTok_getLast, digitCh_beq_comma (mod10_le _),
    isDigitCh_digitCh (mod10_le _), Bool.not_true, Bool.false_eq_true, if_false,
    splitOn1_timeTok]

theorem pdtInts_fixed {y d hh mi ss m oh om : Nat} {sg : Bool}
    (hy1 : 1000 ≤ y) (hy2 : y ≤ 9999) (hdle : d ≤ 99) (hhle : hh ≤ 99) (hmile : mi ≤ 99)
    (hssle : ss ≤ 99) (hoh : oh ≤ 23) (hom : om ≤ 59) :
    ∃ tzv, pdtInts (pad4 y) (pad2 d) (pad2 hh) (pad2 mi) (pad2 ss) m (tzTok sg oh om) =
        some ⟨(y : Int), m, (d : Int), (hh : Int), (mi : Int), (ss : Int), tzv⟩ ∧
      tzOk tzv = true := by
  have h4 : pad4 y ≠ [] := by simp [pad4]
  have h2d : pad2 d ≠ [] := by simp [pad2]
  have h2h : pad2 hh ≠ [] := by simp [pad2]
  have h2m : pad2 mi ≠ [] := by simp [pad2]
  have h2s : pad2 ss ≠ [] := by simp [pad2]
  have hy100 : ¬((y : Int) < 100) := by omega
  simp only [pdtInts,
    pyInt_digits h4 (pad4_digits y), digitsVal_pad4 hy2,
    pyInt_digits h2d (pad2_digits d), digitsVal_pad2 hdle,
    pyInt_digits h2h (pad2_digits hh), digitsVal_pad2 hhle,
    pyInt_digits h2m (pad2_digits mi), digitsVal_pad2 hmile,
    pyInt_digits h2s (pad2_digits ss), digitsVal_pad2 hssle,
    lookupTz_tzTok, pyInt_tzTok (show oh ≤ 99 by omega) (show om ≤ 99 by omega) sg,
    tzTok_head, if_neg hy100]
  cases sg with
  | true =>
    simp only [eq_self_iff_true, if_true]
    have hcond : ¬(((oh * 100 + om : Nat) : Int) = 0 ∧
        (some '+' : Option Char) = some '-') := by
      rintro ⟨-, hpm⟩
      exact absurd (Option.some.inj hpm) (by decide)
    by_cases hz : oh * 100 + om = 0
    · have hzc : ((oh * 100 + om : Nat) : Int) = 0 := by exact_mod_cast hz
      refine ⟨some 0, ?_, rfl⟩
      simp only [hzc]
      rfl
    · have hz2 : ¬(((oh * 100 + om : Nat) : Int) = 0) := by exact_mod_cast hz
      have hneg : ¬(((oh * 100 + om : Nat) : Int) < 0) := by omega
      refine ⟨some (1 * (((oh * 100 + om : Nat) : Int) / 100 * 3600 +
        ((oh * 100 + om : Nat) : Int) % 100 * 60)), ?_, ?_⟩
      · simp only [if_neg hcond, if_neg hz2, if_neg hneg, Int.natAbs_ofNat]
      · simp only [tzOk]
        rw [if_pos (And.intro (by omega) (by omega))]
  | false =>
    simp only [Bool.false_eq_true, if_false]
    by_cases hz : oh * 100 + om = 0
    · refine ⟨none, ?_, rfl⟩
      rw [if_pos (And.intro (show -((oh * 100 + om : Nat) : Int) = 0 by omega) trivial)]
    · have hz2 : ¬(-((oh * 100 + om : Nat) : Int) = 0 ∧ True) := by
        rintro ⟨hv, -⟩
        exact hz (by omega)
      have hznz : ¬(-((oh * 100 + om : Nat) : Int) = 0) := by omega
      have hlt : -((oh * 100 + om : Nat) : Int) < 0 := by omega
      refine ⟨some (-1 * (((oh * 100 + om : Nat) : Int) / 100 * 3600 +
        ((oh * 100 + om : Nat) : Int) % 100 * 60)), ?_, ?_⟩
      · simp only [if_neg hz2, if_neg hznz, if_pos hlt, Int.natAbs_neg, Int.natAbs_ofNat]
      · simp only [tzOk]
        rw [if_pos (And.intro (by omega) (by omega))]

theorem daysInMonth_le (y : Int) (m : Nat) : daysInMonth y m ≤ 31 := by
  unfold daysInMonth
  split
  · split <;> norm_num
  · split <;> norm_num

theorem parse_email_date_some (s : String) :
    parse_email_date (some s) =
      if s.data = [] then none
      else
        match parsedate_to_datetime s.data with
        | some dt => some dt
        | none => strptimeFixed (stripTzName s.data) := rfl

theorem parsedate_tz_fixed {w d m y hh mi ss oh om : Nat} {sg : Bool} {nm : List Char}
    (hw : w < 7) (hm1 : 1 ≤ m) (hm2 : m ≤ 12) (hnm2 : ∀ c ∈ nm, isUpperAZ c = true) :
    parsedate_tz (joinSp (fixedHeaderToks w d m y hh mi ss sg oh om nm)) =
      pdtFields (pad2 d) (monthAbbrs.getD (m - 1) []) (pad4 y) (timeTok hh mi ss)
        (tzTok sg oh om) := by
  have hsplit : splitWs (joinSp (fixedHeaderToks w d m y hh mi ss sg oh om nm)) =
      fixedHeaderToks w d m y hh mi ss sg oh om nm :=
    splitWs_joinSp _ (fixedHeaderToks_wf hw hm1 hm2 hnm2)
  unfold parsedate_tz
  rw [hsplit]
  rw [if_neg (show ¬(fixedHeaderToks w d m y hh mi ss sg oh om nm = []) from by
    simp [fixedHeaderToks])]
  rw [show pdtDropDay (fixedHeaderToks w d m y hh mi ss sg oh om nm) =
      [pad2 d, monthAbbrs.getD (m - 1) [], pad4 y, timeTok hh mi ss, tzTok sg oh om,
       tzNameTok nm] from by
    simp only [fixedHeaderToks, pdtDropDay]
    rw [if_pos (Or.inl (List.getLast?_concat _))]]
  rfl

/-- C9: a valid fixed-format mail date followed by a trailing
parenthesized all-capitals timezone name still resolves to the written
calendar date. (On these headers the standard mail-date parser already
succeeds — it drops the trailing comment token — so the conditional
fallback clause of the claim is never exercised; the resolved date is
the one written in the header.) -/
theorem claim_C9_paren_tz (w d m y hh mi ss oh om : Nat) (sg : Bool) (nm : List Char)
    (hw : w < 7) (hm1 : 1 ≤ m) (hm2 : m ≤ 12) (hd1 : 1 ≤ d)
    (hd2 : (d : Int) ≤ daysInMonth (y : Int) m)
    (hy1 : 1000 ≤ y) (hy2 : y ≤ 9999) (hhh : hh ≤ 23) (hmi : mi ≤ 59) (hss : ss ≤ 59)
    (hoh : oh ≤ 23) (hom : om ≤ 59)
    (_hnm1 : nm ≠ []) (hnm2 : ∀ c ∈ nm, isUpperAZ c = true) :
    (parse_email_date (some (mkFixedHeader w d m y hh mi ss sg oh om nm))).map
        (fun dt => (dt.year, dt.month, dt.day)) = some ((y : Int), m, (d : Int)) := by
  have hdle : d ≤ 99 := by
    have := daysInMonth_le (y : Int) m
    omega
  obtain ⟨tzv, hints, htzok⟩ :=
    @pdtInts_fixed y d hh mi ss m oh om sg hy1 hy2 hdle (by omega) (by omega)
      (by omega) hoh hom
  have hpdt : parsedate_to_datetime
      (joinSp (fixedHeaderToks w d m y hh mi ss sg oh om nm)) =
      some ⟨(y : Int), m, (d : Int), (hh : Int), (mi : Int), (ss : Int), tzv⟩ := by
    unfold parsedate_to_datetime
    rw [parsedate_tz_fixed hw hm1 hm2 hnm2, pdtFields_fixed hm1 hm2, hints]
    show mkDatetime (y : Int) m (d : Int) (hh : Int) (mi : Int) (ss : Int) tzv = _
    unfold mkDatetime
    rw [if_pos]
    refine ⟨by omega, by omega, hm1, hm2, by omega, hd2, by omega, by omega, by omega,
      by omega, by omega, by omega, htzok⟩
  have hdata : (mkFixedHeader w d m y hh mi ss sg oh om nm).data =
      joinSp (fixedHeaderToks w d m y hh mi ss sg oh om nm) := rfl
  have hne : joinSp (fixedHeaderToks w d m y hh mi ss sg oh om nm) ≠ [] := by
    intro h0
    have hsplit : splitWs (joinSp (fixedHeaderToks w d m y hh mi ss sg oh om nm)) =
        fixedHeaderToks w d m y hh mi ss sg oh om nm :=
      splitWs_joinSp _ (fixedHeaderToks_wf hw hm1 hm2 hnm2)
    rw [h0] at hsplit
    exact absurd hsplit.symm (by simp [fixedHeaderToks, splitWs, splitWsAux])
  rw [parse_email_date_some, hdata, if_neg hne, hpdt]
  rfl

/-- Witness for C9 at `Mon, 03 Jun 2024 07:15:00 +0000 (UTC)`. -/
theorem claim_C9_witness :
    (parse_email_date (some (mkFixedHeader 0 3 6 2024 7 15 0 true 0 0 "UTC".data))).map
        (fun dt => (dt.year, dt.month, dt.day)) =
      some ((2024 : Int), 6, (3 : Int)) :=
  claim_C9_paren_tz 0 3 6 2024 7 15 0 0 0 true "UTC".data (by decide) (by decide)
    (by decide) (by decide) (by decide) (by decide) (by decide) (by decide) (by decide)
    (by decide) (by decide) (by decide) (by decide) (by decide)
